import Mathlib

/-!
Verification development for the task-orchestration core of the repository
(`McpTaskManager` and its `Semaphore`, from the embedded TypeScript module).

The embedding is shallow:

* A JavaScript object used as a map with string keys (`run`) is modelled as an
  insertion-ordered association list (`RunMap`), matching the semantics of
  `run[id] = v` (overwrite in place when the key exists, append otherwise) and
  of `Object.entries` (insertion order).
* Each event handler installed by `executeTask` is a pure state transformer on
  an `ExecState` that carries the mutable closure state of one `executeTask`
  call (`taskId`, the shared `run` map, whether the timeout timer is still
  armed, whether the promise has settled) plus a ghost log of every payload
  passed to the `streamContent` callback.
* The promise is modelled by `settled : Option Bool` (`some true` = resolved,
  `some false` = rejected); JavaScript promises keep the first settlement, so
  later calls are absorbed by `settleOnce`.
* The `Semaphore` is modelled as a state machine over `SemState`, instrumented
  with ghost fields recording the grant order, the queue-admission order and
  the number of releases performed.
-/

/-- The status union of `TaskRun` in the source:
`"created" | "running" | "completed" | "failed" | "cancelled"`. -/
inductive TaskStatus where
  | created
  | running
  | completed
  | failed
  | cancelled
deriving DecidableEq, Repr

/-- The string literal of each `TaskStatus` member in the source's union type. -/
def statusName : TaskStatus → String
  | .created => "created"
  | .running => "running"
  | .completed => "completed"
  | .failed => "failed"
  | .cancelled => "cancelled"

/-- `interface TaskRun { task: string; status: ...; result: string }`. -/
structure TaskRun where
  task : String
  status : TaskStatus
  result : String
deriving DecidableEq, Repr

/-- The `run` object `{ [taskId: string]: TaskRun }`, as an insertion-ordered
association list with unique keys. -/
abbrev RunMap := List (String × TaskRun)

/-- Lookup `run[id]` (JS property read). -/
def findRun : RunMap → String → Option TaskRun
  | [], _ => none
  | (k, v) :: rest, id => if k = id then some v else findRun rest id

/-- Assignment `run[id] = v`: overwrite in place when the key exists,
append at the end otherwise (JS string-keyed object insertion order). -/
def setRun : RunMap → String → TaskRun → RunMap
  | [], id, v => [(id, v)]
  | (k, w) :: rest, id, v =>
      if k = id then (k, v) :: rest else (k, w) :: setRun rest id v

/-- In-place field mutation `run[id].f = ...`: apply `f` to the entry at `id`
when present, no-op otherwise. -/
def updateRun : RunMap → String → (TaskRun → TaskRun) → RunMap
  | [], _, _ => []
  | (k, v) :: rest, id, f =>
      if k = id then (k, f v) :: rest else (k, v) :: updateRun rest id f

theorem findRun_setRun_self (r : RunMap) (id : String) (v : TaskRun) :
    findRun (setRun r id v) id = some v := by
  induction r with
  | nil => simp [setRun, findRun]
  | cons p rest ih =>
      obtain ⟨k, w⟩ := p
      by_cases h : k = id
      · simp [setRun, findRun, h]
      · simp [setRun, findRun, h, ih]

theorem findRun_setRun_ne (r : RunMap) (id id' : String) (v : TaskRun)
    (h : id' ≠ id) : findRun (setRun r id v) id' = findRun r id' := by
  have h' : id ≠ id' := Ne.symm h
  induction r with
  | nil => simp [setRun, findRun, h']
  | cons p rest ih =>
      obtain ⟨k, w⟩ := p
      by_cases hk : k = id
      · subst hk
        simp [setRun, findRun, h']
      · simp [setRun, findRun, hk, ih]

theorem findRun_updateRun_self (r : RunMap) (id : String) (f : TaskRun → TaskRun) :
    findRun (updateRun r id f) id = (findRun r id).map f := by
  induction r with
  | nil => simp [updateRun, findRun]
  | cons p rest ih =>
      obtain ⟨k, w⟩ := p
      by_cases h : k = id
      · simp [updateRun, findRun, h]
      · simp [updateRun, findRun, h, ih]

theorem findRun_updateRun_ne (r : RunMap) (id id' : String) (f : TaskRun → TaskRun)
    (h : id' ≠ id) : findRun (updateRun r id f) id' = findRun r id' := by
  have h' : id ≠ id' := Ne.symm h
  induction r with
  | nil => simp [updateRun, findRun]
  | cons p rest ih =>
      obtain ⟨k, w⟩ := p
      by_cases hk : k = id
      · subst hk
        simp [updateRun, findRun, h']
      · simp [updateRun, findRun, hk, ih]

/-- The status annotation chosen by the `switch` in `summarizeRun`. -/
def statusText : TaskStatus → String
  | .created => "(Created)"
  | .running => "(Ongoing)"
  | .completed => ""
  | .failed => "(Failed)"
  | .cancelled => "(Cancelled)"

/-- One iteration of the `for (const [taskId, taskRun] of Object.entries(run))`
loop body of `summarizeRun`. -/
def summarizeEntry (taskId : String) (tr : TaskRun) : String :=
  "## " ++ tr.task ++ " " ++ statusText tr.status ++ "\n\n"
    ++ tr.result ++ "\n\n"
    ++ (if tr.status = TaskStatus.completed ∨ tr.status = TaskStatus.failed then
          "*Task ID: " ++ taskId ++ "*\n\n"
        else "")
    ++ "---\n\n"

/-- `McpTaskManager.summarizeRun`: markdown projection of the run map.
A pure function of the map, hence deterministic by construction. -/
def summarizeRun (run : RunMap) : String :=
  if run.isEmpty then
    "# RooCode Tasks\n\n*No tasks started yet...*\n\n"
  else
    run.foldl (fun acc p => acc ++ summarizeEntry p.1 p.2) "# RooCode Tasks\n\n"

/-- The runtime events delivered to the `TaskEventHandlers` installed by
`McpTaskManager.executeTask` (the `message` payload is carried via its
`JSON.stringify` serialization, which is all the handler stores). -/
inductive RuntimeEvent where
  | taskCreated (id : String)
  | taskStarted (id : String)
  | message (id : String) (msg : String)
  | taskCompleted (id : String)
  | taskAborted (id : String)
  | toolFailed (id : String) (tool : String) (err : String)
deriving DecidableEq, Repr

/-- The task id a runtime event carries. -/
def eventId : RuntimeEvent → String
  | .taskCreated id => id
  | .taskStarted id => id
  | .message id _ => id
  | .taskCompleted id => id
  | .taskAborted id => id
  | .toolFailed id _ _ => id

/-- Closure state of one `executeTask` call: the captured `taskId` variable,
the shared `run` map, the ghost log of `streamContent` payloads, whether the
timeout timer is still armed (`clearTimeout` not yet called and not fired),
and the promise settlement (`some true` resolved, `some false` rejected). -/
structure ExecState where
  taskId : String
  run : RunMap
  streamed : List String
  timerActive : Bool
  settled : Option Bool
deriving DecidableEq, Repr

/-- Initial closure state of `executeTask`: `let taskId = ""`, shared map,
armed timer, pending promise. -/
def initExecState (run : RunMap) : ExecState :=
  { taskId := "", run := run, streamed := [], timerActive := true, settled := none }

/-- A JavaScript promise keeps its first settlement; later `resolve`/`reject`
calls are no-ops. -/
def settleOnce (st : Option Bool) (v : Bool) : Option Bool :=
  match st with
  | none => some v
  | some x => some x

/-- One event handler invocation of the `TaskEventHandlers` object built in
`executeTask`, translated clause by clause from the source. `query` is the
captured `taskQuery`; `hasStream` records whether a `streamContent` callback
was supplied. -/
def applyEvent (query : String) (hasStream : Bool) (st : ExecState) :
    RuntimeEvent → ExecState
  | .taskCreated id =>
      let run := setRun st.run id
        { task := query, status := .created, result := "Task created, waiting to start..." }
      { st with
        taskId := id
        run := run
        streamed := if hasStream then st.streamed ++ [summarizeRun run] else st.streamed }
  | .taskStarted id =>
      if (findRun st.run id).isSome then
        let run := updateRun st.run id fun tr =>
          { tr with status := .running, result := "Task started..." }
        { st with
          run := run
          streamed := if hasStream then st.streamed ++ [summarizeRun run] else st.streamed }
      else st
  | .message id msg =>
      if (findRun st.run id).isSome then
        let run := updateRun st.run id fun tr => { tr with result := msg }
        { st with
          run := run
          streamed := if hasStream then st.streamed ++ [summarizeRun run] else st.streamed }
      else st
  | .taskCompleted id =>
      let st1 := { st with timerActive := false }
      let st2 :=
        if (findRun st1.run id).isSome then
          let run := updateRun st1.run id fun tr =>
            { tr with
              status := .completed
              result :=
                if tr.result = "" ∨ tr.result = "Task started..." then
                  "Task completed successfully"
                else tr.result }
          { st1 with
            run := run
            streamed := if hasStream then st1.streamed ++ [summarizeRun run] else st1.streamed }
        else st1
      { st2 with settled := settleOnce st2.settled true }
  | .taskAborted id =>
      let st1 := { st with timerActive := false }
      let st2 :=
        if (findRun st1.run id).isSome then
          let run := updateRun st1.run id fun tr =>
            { tr with status := .cancelled, result := "Task was cancelled" }
          { st1 with
            run := run
            streamed := if hasStream then st1.streamed ++ [summarizeRun run] else st1.streamed }
        else st1
      { st2 with settled := settleOnce st2.settled true }
  | .toolFailed id tool err =>
      let st1 := { st with timerActive := false }
      let st2 :=
        if (findRun st1.run id).isSome then
          let run := updateRun st1.run id fun tr =>
            { tr with status := .failed, result := "Tool " ++ tool ++ " failed: " ++ err }
          { st1 with
            run := run
            streamed := if hasStream then st1.streamed ++ [summarizeRun run] else st1.streamed }
        else st1
      { st2 with settled := settleOnce st2.settled true }

/-- Deliver a sequence of runtime events to the handlers, in arrival order. -/
def applyEvents (query : String) (hasStream : Bool) (st : ExecState)
    (evs : List RuntimeEvent) : ExecState :=
  evs.foldl (applyEvent query hasStream) st

/-- The `setTimeout` callback of `executeTask`: fires only while the timer is
armed; mutates the registry entry only when a truthy `taskId` was captured and
`run[taskId]` exists, and always rejects the promise. -/
def fireTimeout (hasStream : Bool) (st : ExecState) : ExecState :=
  if st.timerActive then
    let st1 :=
      if st.taskId ≠ "" then
        if (findRun st.run st.taskId).isSome then
          let run := updateRun st.run st.taskId fun tr =>
            { tr with status := .failed, result := "Task timed out after 5 minutes" }
          { st with
            run := run
            streamed := if hasStream then st.streamed ++ [summarizeRun run] else st.streamed }
        else st
      else st
    { st1 with
      timerActive := false
      settled := settleOnce st1.settled false }
  else st

/-- The placeholder id generated in the `startNewTask` catch handler:
`error_${Date.now()}_${Math.random().toString(36).substr(2, 9)}`. -/
def tempTaskId (now : Nat) (rand : String) : String :=
  "error_" ++ toString now ++ "_" ++ rand

/-- The `.catch` handler installed on `rooAdapter.startNewTask`: clears the
timer, records a synthetic failed `TaskRun` under the generated placeholder
id, streams the refreshed summary, and rejects the promise. -/
def startFailureHandler (query : String) (hasStream : Bool) (now : Nat)
    (rand : String) (errMsg : String) (st : ExecState) : ExecState :=
  let run := setRun st.run (tempTaskId now rand)
    { task := query, status := .failed, result := "Failed to start task: " ++ errMsg }
  { st with
    timerActive := false
    run := run
    streamed := if hasStream then st.streamed ++ [summarizeRun run] else st.streamed
    settled := settleOnce st.settled false }

/-- What the environment (runtime adapter + timer) does to one `executeTask`
call: either `startNewTask` rejects, or the task runs, delivering `pre`
events, then possibly firing the timeout, then delivering `post` events
(handlers stay registered after the promise settles). -/
inductive TaskOutcome where
  | startFailure (now : Nat) (rand : String) (errMsg : String)
  | runs (pre : List RuntimeEvent) (timesOut : Bool) (post : List RuntimeEvent)
deriving DecidableEq, Repr

/-- Every task id a `TaskOutcome` can touch in the run map, other than via
the captured `taskId` variable (which is always one of the `taskCreated` ids
or the initial `""`). -/
def outcomeIds : TaskOutcome → List String
  | .startFailure now rand _ => [tempTaskId now rand]
  | .runs pre _ post => pre.map eventId ++ post.map eventId

/-- Symbolic execution of one `executeTask` call against a given outcome of
its environment, starting from the shared run map `run`. -/
def executeTask (query : String) (hasStream : Bool) (o : TaskOutcome)
    (run : RunMap) : ExecState :=
  match o with
  | .startFailure now rand errMsg =>
      startFailureHandler query hasStream now rand errMsg (initExecState run)
  | .runs pre timesOut post =>
      let st1 := applyEvents query hasStream (initExecState run) pre
      let st2 := if timesOut then fireTimeout hasStream st1 else st1
      applyEvents query hasStream st2 post

/-- One entry of the `taskQueries` fan-out: the query string together with
the behaviour of its environment. -/
structure TaskSpec where
  query : String
  outcome : TaskOutcome
deriving DecidableEq, Repr

/-- The `Promise.allSettled` fan-out of `executeRooTasks` over the shared
`run` map: every task is processed to its settlement (rejections included)
and contributes its effect; distinct tasks write to distinct keys, so the
serialization is per-key faithful to the interleaved original. -/
def runTasks (hasStream : Bool) (tasks : List TaskSpec) (run0 : RunMap) : RunMap :=
  tasks.foldl (fun r t => (executeTask t.query hasStream t.outcome r).run) run0

/-- `ExecuteRooTasksOptions`. `streamContent` is modelled by its presence. -/
structure ExecuteRooTasksOptions where
  maxConcurrency : Option Nat
  streamContent : Bool
  timeout : Option Nat
deriving DecidableEq, Repr

/-- Destructuring default `maxConcurrency = 3` in `executeRooTasks`. -/
def effectiveMaxConcurrency (o : ExecuteRooTasksOptions) : Nat :=
  o.maxConcurrency.getD 3

/-- Destructuring default `timeout = 300000` (5 minutes) in `executeRooTasks`. -/
def effectiveTimeout (o : ExecuteRooTasksOptions) : Nat :=
  o.timeout.getD 300000

/-- The `isInitialized` flag of `McpTaskManager`. -/
structure ManagerState where
  isInitialized : Bool
deriving DecidableEq, Repr

/-- `McpTaskManager.initialize`: early-returns when already initialized,
throws when the RooCode adapter is not active, otherwise flips the flag. -/
def initManager (adapterActive : Bool) (m : ManagerState) : Except String ManagerState :=
  if m.isInitialized then
    Except.ok m
  else if !adapterActive then
    Except.error "RooCode adapter is not available"
  else
    Except.ok { isInitialized := true }

/-- `McpTaskManager.executeRooTasks`: the initialization guard runs before
the run map, the semaphore or any task exists; afterwards the tasks are
fanned out and the run map is returned once all promises have settled. -/
def executeRooTasks (m : ManagerState) (tasks : List TaskSpec)
    (o : ExecuteRooTasksOptions) : Except String RunMap :=
  if !m.isInitialized then
    Except.error "McpTaskManager is not initialized"
  else
    Except.ok (runTasks o.streamContent tasks [])

/-- Whether a handler's `if (run[id])` guard passes in state `st`
(`onTaskCreated` is unguarded). -/
def eventApplies (st : ExecState) : RuntimeEvent → Bool
  | .taskCreated _ => true
  | .taskStarted id => (findRun st.run id).isSome
  | .message id _ => (findRun st.run id).isSome
  | .taskCompleted id => (findRun st.run id).isSome
  | .taskAborted id => (findRun st.run id).isSome
  | .toolFailed id _ _ => (findRun st.run id).isSome

/-- State of the source's `Semaphore`, with ghost instrumentation:
`permits` and `waitQueue` are the two fields of the class (waiters are
identified by a number instead of a closure); `granted` records every
acquisition actually granted, in grant order; `qgranted` records the subset
of grants that went to queued waiters, in grant order; `enqueued` records
every waiter ever pushed onto `waitQueue`, in push order; `released` counts
the `release()` calls performed. -/
structure SemState where
  permits : Nat
  waitQueue : List Nat
  granted : List Nat
  qgranted : List Nat
  enqueued : List Nat
  released : Nat
deriving DecidableEq, Repr

/-- `new Semaphore(permits)`. -/
def initSem (n : Nat) : SemState :=
  { permits := n, waitQueue := [], granted := [], qgranted := [], enqueued := [], released := 0 }

namespace Semaphore

/-- `Semaphore.acquire()` by caller `id`: grants immediately when a permit is
available (`permits-- ; resolve`), otherwise pushes the resolver onto
`waitQueue`. -/
def acquire (s : SemState) (id : Nat) : SemState :=
  if 0 < s.permits then
    { s with
      permits := s.permits - 1
      granted := s.granted ++ [id] }
  else
    { s with
      waitQueue := s.waitQueue ++ [id]
      enqueued := s.enqueued ++ [id] }

/-- `Semaphore.release()`: `permits++`, then, in the same synchronous step,
`shift` the next queued resolver (if any) and run it (`permits-- ; resolve`). -/
def release (s : SemState) : SemState :=
  let s1 := { s with
    permits := s.permits + 1
    released := s.released + 1 }
  match s1.waitQueue with
  | [] => s1
  | next :: rest =>
      { s1 with
        permits := s1.permits - 1
        waitQueue := rest
        granted := s1.granted ++ [next]
        qgranted := s1.qgranted ++ [next] }

end Semaphore

/-- One operation applied to the semaphore. -/
inductive SemOp where
  | acq (id : Nat)
  | rel
deriving DecidableEq, Repr

/-- Apply one semaphore operation. -/
def applyOp (s : SemState) : SemOp → SemState
  | .acq id => Semaphore.acquire s id
  | .rel => Semaphore.release s

/-- Run a sequence of semaphore operations from `new Semaphore(n)`. -/
def applyOps (n : Nat) (ops : List SemOp) : SemState :=
  ops.foldl applyOp (initSem n)

/-- Outstanding permits: acquisitions granted minus releases performed. -/
def outstanding (s : SemState) : Int :=
  (s.granted.length : Int) - (s.released : Int)

/-- `k` callers (numbered `0, ..., k-1`) calling `acquire` in order, with no
intervening release, on `new Semaphore(n)`. -/
def acquireSeq (n k : Nat) : SemState :=
  applyOps n ((List.range k).map SemOp.acq)

/-- Permit accounting invariant of the semaphore: at every state,
`permits + #granted = capacity + #released`. -/
def semAccounting (n : Nat) (s : SemState) : Prop :=
  (s.permits : Int) + (s.granted.length : Int) = (n : Int) + (s.released : Int)

/-- FIFO invariant: the waiters granted from the queue, followed by the
waiters still queued, are exactly the waiters ever enqueued, in push order. -/
def semFifo (s : SemState) : Prop :=
  s.qgranted ++ s.waitQueue = s.enqueued

theorem semAccounting_applyOp (n : Nat) (s : SemState) (op : SemOp)
    (h : semAccounting n s) : semAccounting n (applyOp s op) := by
  cases op with
  | acq id =>
      by_cases hp : 0 < s.permits
      · simp only [applyOp, Semaphore.acquire, if_pos hp, semAccounting,
          List.length_append, List.length_cons, List.length_nil] at h ⊢
        omega
      · simp only [applyOp, Semaphore.acquire, if_neg hp, semAccounting] at h ⊢
        exact h
  | rel =>
      simp only [applyOp, Semaphore.release] at *
      rcases hq : s.waitQueue with _ | ⟨next, rest⟩ <;>
        simp only [hq, semAccounting, List.length_append, List.length_cons,
          List.length_nil] at h ⊢ <;> omega

theorem semFifo_applyOp (s : SemState) (op : SemOp)
    (h : semFifo s) : semFifo (applyOp s op) := by
  cases op with
  | acq id =>
      by_cases hp : 0 < s.permits
      · simpa only [applyOp, Semaphore.acquire, if_pos hp, semFifo] using h
      · simp only [applyOp, Semaphore.acquire, if_neg hp, semFifo] at h ⊢
        rw [← List.append_assoc, h]
  | rel =>
      simp only [applyOp, Semaphore.release] at *
      rcases hq : s.waitQueue with _ | ⟨next, rest⟩
      · simpa only [hq, semFifo] using h
      · simp only [hq, semFifo] at h ⊢
        rw [List.append_assoc]
        simpa using h

theorem semAccounting_applyOps (n : Nat) (ops : List SemOp) :
    semAccounting n (applyOps n ops) := by
  have hinit : semAccounting n (initSem n) := by
    simp [semAccounting, initSem]
  have : ∀ (l : List SemOp) (s : SemState), semAccounting n s →
      semAccounting n (l.foldl applyOp s) := by
    intro l
    induction l with
    | nil => intro s hs; simpa using hs
    | cons op rest ih =>
        intro s hs
        exact ih _ (semAccounting_applyOp n s op hs)
  exact this ops _ hinit

theorem semFifo_applyOps (n : Nat) (ops : List SemOp) :
    semFifo (applyOps n ops) := by
  have hinit : semFifo (initSem n) := by simp [semFifo, initSem]
  have : ∀ (l : List SemOp) (s : SemState), semFifo s →
      semFifo (l.foldl applyOp s) := by
    intro l
    induction l with
    | nil => intro s hs; simpa using hs
    | cons op rest ih =>
        intro s hs
        exact ih _ (semFifo_applyOp s op hs)
  exact this ops _ hinit

theorem outstanding_le (n : Nat) (ops : List SemOp) :
    outstanding (applyOps n ops) ≤ n := by
  have h := semAccounting_applyOps n ops
  simp only [semAccounting] at h
  simp only [outstanding]
  omega

/-- After `k ≤ n` immediate acquisitions on `new Semaphore(n)`: `k` permits
handed out from the pool, nothing queued. -/
theorem acquireSeq_le (n : Nat) : ∀ k, k ≤ n →
    acquireSeq n k =
      { permits := n - k, waitQueue := [], granted := List.range k,
        qgranted := [], enqueued := [], released := 0 } := by
  intro k
  induction k with
  | zero =>
      intro _
      simp [acquireSeq, applyOps, initSem]
  | succ k ih =>
      intro hk
      have hk' : k ≤ n := Nat.le_of_succ_le hk
      have hstep : acquireSeq n (k + 1) = Semaphore.acquire (acquireSeq n k) k := by
        simp [acquireSeq, applyOps, List.range_succ, applyOp]
      rw [hstep, ih hk']
      have hkn : k < n := by omega
      simp [Semaphore.acquire, hkn, List.range_succ, Nat.sub_sub]

theorem findRun_applyEvent_ne (query : String) (hasStream : Bool) (st : ExecState)
    (ev : RuntimeEvent) (id : String) (hne : id ≠ eventId ev) :
    findRun (applyEvent query hasStream st ev).run id = findRun st.run id := by
  cases ev with
  | taskCreated i =>
      simp only [eventId] at hne
      simp only [applyEvent]
      exact findRun_setRun_ne _ _ _ _ hne
  | taskStarted i =>
      simp only [eventId] at hne
      by_cases hg : (findRun st.run i).isSome
      · simp only [applyEvent, if_pos hg]
        exact findRun_updateRun_ne _ _ _ _ hne
      · simp only [applyEvent, if_neg hg]
  | message i msg =>
      simp only [eventId] at hne
      by_cases hg : (findRun st.run i).isSome
      · simp only [applyEvent, if_pos hg]
        exact findRun_updateRun_ne _ _ _ _ hne
      · simp only [applyEvent, if_neg hg]
  | taskCompleted i =>
      simp only [eventId] at hne
      by_cases hg : (findRun st.run i).isSome
      · simp only [applyEvent, if_pos hg]
        exact findRun_updateRun_ne _ _ _ _ hne
      · simp only [applyEvent, if_neg hg]
  | taskAborted i =>
      simp only [eventId] at hne
      by_cases hg : (findRun st.run i).isSome
      · simp only [applyEvent, if_pos hg]
        exact findRun_updateRun_ne _ _ _ _ hne
      · simp only [applyEvent, if_neg hg]
  | toolFailed i tool err =>
      simp only [eventId] at hne
      by_cases hg : (findRun st.run i).isSome
      · simp only [applyEvent, if_pos hg]
        exact findRun_updateRun_ne _ _ _ _ hne
      · simp only [applyEvent, if_neg hg]

theorem applyEvent_taskId (query : String) (hasStream : Bool) (st : ExecState)
    (ev : RuntimeEvent) :
    (applyEvent query hasStream st ev).taskId = st.taskId
      ∨ (applyEvent query hasStream st ev).taskId = eventId ev := by
  cases ev with
  | taskCreated i => right; simp [applyEvent, eventId]
  | taskStarted i =>
      left
      by_cases hg : (findRun st.run i).isSome <;> simp [applyEvent, hg]
  | message i msg =>
      left
      by_cases hg : (findRun st.run i).isSome <;> simp [applyEvent, hg]
  | taskCompleted i =>
      left
      by_cases hg : (findRun st.run i).isSome <;> simp [applyEvent, hg]
  | taskAborted i =>
      left
      by_cases hg : (findRun st.run i).isSome <;> simp [applyEvent, hg]
  | toolFailed i tool err =>
      left
      by_cases hg : (findRun st.run i).isSome <;> simp [applyEvent, hg]

theorem findRun_applyEvents_ne (query : String) (hasStream : Bool)
    (evs : List RuntimeEvent) (st : ExecState) (id : String)
    (hne : ∀ e ∈ evs, id ≠ eventId e) :
    findRun (applyEvents query hasStream st evs).run id = findRun st.run id := by
  induction evs generalizing st with
  | nil => rfl
  | cons e rest ih =>
      have h1 : id ≠ eventId e := hne e (List.mem_cons_self e rest)
      have h2 : ∀ x ∈ rest, id ≠ eventId x := fun x hx => hne x (List.mem_cons_of_mem e hx)
      calc findRun (applyEvents query hasStream st (e :: rest)).run id
          = findRun (applyEvent query hasStream st e).run id := ih _ h2
        _ = findRun st.run id := findRun_applyEvent_ne query hasStream st e id h1

theorem applyEvents_taskId (query : String) (hasStream : Bool)
    (evs : List RuntimeEvent) (st : ExecState) :
    (applyEvents query hasStream st evs).taskId = st.taskId
      ∨ (applyEvents query hasStream st evs).taskId ∈ evs.map eventId := by
  induction evs generalizing st with
  | nil => left; rfl
  | cons e rest ih =>
      rcases ih (applyEvent query hasStream st e) with h | h
      · rw [show applyEvents query hasStream st (e :: rest)
              = applyEvents query hasStream (applyEvent query hasStream st e) rest from rfl]
        rcases applyEvent_taskId query hasStream st e with h' | h'
        · left; rw [h, h']
        · right; rw [h, h']; simp
      · right
        rw [show applyEvents query hasStream st (e :: rest)
              = applyEvents query hasStream (applyEvent query hasStream st e) rest from rfl]
        simp only [List.map_cons, List.mem_cons]
        right
        exact h

theorem fireTimeout_taskId (hasStream : Bool) (st : ExecState) :
    (fireTimeout hasStream st).taskId = st.taskId := by
  by_cases ht : st.timerActive
  · by_cases h0 : st.taskId ≠ ""
    · by_cases hg : (findRun st.run st.taskId).isSome <;>
        simp [fireTimeout, ht, h0, hg]
    · simp [fireTimeout, ht, h0]
  · simp [fireTimeout, ht]

theorem findRun_fireTimeout_ne (hasStream : Bool) (st : ExecState) (id : String)
    (hne : id ≠ st.taskId) :
    findRun (fireTimeout hasStream st).run id = findRun st.run id := by
  by_cases ht : st.timerActive
  · by_cases h0 : st.taskId ≠ ""
    · by_cases hg : (findRun st.run st.taskId).isSome
      · simp only [fireTimeout, if_pos ht, if_pos h0, if_pos hg]
        exact findRun_updateRun_ne _ _ _ _ hne
      · simp [fireTimeout, ht, h0, hg]
    · simp [fireTimeout, ht, h0]
  · simp [fireTimeout, ht]

/-- Frame property of one task's symbolic execution: a key that none of this
task's events, placeholder id or captured `taskId` can name is untouched in
the shared run map. -/
theorem findRun_executeTask_ne (query : String) (hasStream : Bool)
    (o : TaskOutcome) (run : RunMap) (id : String)
    (hne : id ∉ outcomeIds o) (h0 : id ≠ "") :
    findRun (executeTask query hasStream o run).run id = findRun run id := by
  cases o with
  | startFailure now rand errMsg =>
      simp only [outcomeIds, List.mem_singleton] at hne
      simp only [executeTask, startFailureHandler]
      exact findRun_setRun_ne _ _ _ _ hne
  | runs pre timesOut post =>
      simp only [outcomeIds, List.mem_append, List.mem_map] at hne
      push_neg at hne
      obtain ⟨hpre, hpost⟩ := hne
      have hpre' : ∀ e ∈ pre, id ≠ eventId e := by
        intro e he heq
        exact hpre e he heq.symm
      have hpost' : ∀ e ∈ post, id ≠ eventId e := by
        intro e he heq
        exact hpost e he heq.symm
      simp only [executeTask]
      set st1 := applyEvents query hasStream (initExecState run) pre with hst1
      have htid : id ≠ st1.taskId := by
        rcases applyEvents_taskId query hasStream pre (initExecState run) with h | h
        · rw [← hst1] at h
          rw [h]
          simpa [initExecState] using h0
        · rw [← hst1] at h
          simp only [List.mem_map] at h
          obtain ⟨e, he, heq⟩ := h
          intro hc
          exact hpre e he (heq.trans hc.symm)
      have hfind1 : findRun st1.run id = findRun run id := by
        rw [hst1]
        exact findRun_applyEvents_ne query hasStream pre (initExecState run) id hpre'
      by_cases ht : timesOut
      · simp only [if_pos ht]
        have htid2 : id ≠ (fireTimeout hasStream st1).taskId := by
          rw [fireTimeout_taskId]; exact htid
        calc findRun (applyEvents query hasStream (fireTimeout hasStream st1) post).run id
            = findRun (fireTimeout hasStream st1).run id :=
              findRun_applyEvents_ne query hasStream post _ id hpost'
          _ = findRun st1.run id := findRun_fireTimeout_ne hasStream st1 id htid
          _ = findRun run id := hfind1
      · simp only [if_neg ht]
        calc findRun (applyEvents query hasStream st1 post).run id
            = findRun st1.run id :=
              findRun_applyEvents_ne query hasStream post _ id hpost'
          _ = findRun run id := hfind1

/-- Frame property of the fan-out: tasks that cannot name `id` leave the
entry at `id` unchanged. -/
theorem findRun_runTasks_fresh (hasStream : Bool) (tasks : List TaskSpec)
    (run0 : RunMap) (id : String)
    (hne : ∀ t ∈ tasks, id ∉ outcomeIds t.outcome) (h0 : id ≠ "") :
    findRun (runTasks hasStream tasks run0) id = findRun run0 id := by
  induction tasks generalizing run0 with
  | nil => rfl
  | cons t rest ih =>
      have h1 : id ∉ outcomeIds t.outcome := hne t (List.mem_cons_self t rest)
      have h2 : ∀ x ∈ rest, id ∉ outcomeIds x.outcome :=
        fun x hx => hne x (List.mem_cons_of_mem t hx)
      calc findRun (runTasks hasStream (t :: rest) run0) id
          = findRun (executeTask t.query hasStream t.outcome run0).run id := ih _ h2
        _ = findRun run0 id := findRun_executeTask_ne t.query hasStream t.outcome run0 id h1 h0

theorem runTasks_append (hasStream : Bool) (l1 l2 : List TaskSpec) (run0 : RunMap) :
    runTasks hasStream (l1 ++ l2) run0 = runTasks hasStream l2 (runTasks hasStream l1 run0) := by
  simp [runTasks, List.foldl_append]

theorem runTasks_cons (hasStream : Bool) (t : TaskSpec) (rest : List TaskSpec) (run0 : RunMap) :
    runTasks hasStream (t :: rest) run0
      = runTasks hasStream rest (executeTask t.query hasStream t.outcome run0).run := rfl

/-- Fully loaded semaphore plus one more requester: the first `n` acquisitions
drain the pool and the `(n+1)`-th requester is queued. -/
theorem acquireSeq_full (n : Nat) :
    acquireSeq n (n + 1) =
      { permits := 0, waitQueue := [n], granted := List.range n,
        qgranted := [], enqueued := [n], released := 0 } := by
  have hstep : acquireSeq n (n + 1) = Semaphore.acquire (acquireSeq n n) n := by
    simp [acquireSeq, applyOps, List.range_succ, applyOp]
  rw [hstep, acquireSeq_le n n le_rfl]
  simp [Semaphore.acquire, Nat.sub_self]

/-- Claim C2: on a `Semaphore` constructed with capacity `N`, the number of
outstanding permits (acquisitions granted minus releases performed) never
exceeds `N` under any sequence of `acquire`/`release` operations; and when
`N + 1` acquisitions are requested simultaneously, the `(N+1)`-th requester
sits in `waitQueue` without a grant, receiving a permit only when a holder
releases. -/
theorem C2_semaphore_bound (n : Nat) (ops : List SemOp) :
    outstanding (applyOps n ops) ≤ (n : Int)
    ∧ (acquireSeq n (n + 1)).waitQueue = [n]
    ∧ n ∉ (acquireSeq n (n + 1)).granted
    ∧ (Semaphore.release (acquireSeq n (n + 1))).granted
        = (acquireSeq n (n + 1)).granted ++ [n] := by
  refine ⟨outstanding_le n ops, ?_, ?_, ?_⟩ <;>
    rw [acquireSeq_full] <;>
    simp [Semaphore.release, List.mem_range]

/-- Claim C3: the semaphore serves waiters in FIFO order. The waiters granted
from the queue, in grant order, followed by the still-queued waiters, are
exactly the waiters ever enqueued, in enqueue order — so the `N`-th queued
caller receives the `N`-th permit released while the queue is non-empty, and
a later-enqueued waiter is never granted before an earlier-enqueued one.
Moreover `release` hands the permit to the head of the queue in the same
synchronous step: the permit count is unchanged and the head moves straight
from `waitQueue` to the granted list. -/
theorem C3_semaphore_fifo :
    (∀ (n : Nat) (ops : List SemOp),
        (applyOps n ops).qgranted ++ (applyOps n ops).waitQueue
          = (applyOps n ops).enqueued)
    ∧ (∀ (s : SemState) (w : Nat) (rest : List Nat), s.waitQueue = w :: rest →
        (Semaphore.release s).qgranted = s.qgranted ++ [w]
        ∧ (Semaphore.release s).granted = s.granted ++ [w]
        ∧ (Semaphore.release s).waitQueue = rest
        ∧ (Semaphore.release s).permits = s.permits
        ∧ (Semaphore.release s).released = s.released + 1) := by
  constructor
  · intro n ops
    exact semFifo_applyOps n ops
  · intro s w rest hq
    refine ⟨?_, ?_, ?_, ?_, ?_⟩ <;> simp [Semaphore.release, hq]

theorem C3_semaphore_fifo_witness :
    ((applyOps 1 [SemOp.acq 0, SemOp.acq 1, SemOp.acq 2, SemOp.rel]).qgranted
        ++ (applyOps 1 [SemOp.acq 0, SemOp.acq 1, SemOp.acq 2, SemOp.rel]).waitQueue
      = (applyOps 1 [SemOp.acq 0, SemOp.acq 1, SemOp.acq 2, SemOp.rel]).enqueued)
    ∧ (Semaphore.release ⟨0, [5, 6], [4], [], [5, 6], 0⟩).qgranted = [] ++ [5]
    ∧ (Semaphore.release ⟨0, [5, 6], [4], [], [5, 6], 0⟩).granted = [4] ++ [5]
    ∧ (Semaphore.release ⟨0, [5, 6], [4], [], [5, 6], 0⟩).waitQueue = [6]
    ∧ (Semaphore.release ⟨0, [5, 6], [4], [], [5, 6], 0⟩).permits = 0
    ∧ (Semaphore.release ⟨0, [5, 6], [4], [], [5, 6], 0⟩).released = 0 + 1 := by
  have h := C3_semaphore_fifo
  have h2 := h.2 ⟨0, [5, 6], [4], [], [5, 6], 0⟩ 5 [6] rfl
  exact ⟨h.1 1 [SemOp.acq 0, SemOp.acq 1, SemOp.acq 2, SemOp.rel],
    h2.1, h2.2.1, h2.2.2.1, h2.2.2.2.1, h2.2.2.2.2⟩

/-- Claim C6: when `startNewTask` rejects, the catch handler records a
synthetic `TaskRun` in the run map under the generated placeholder id
(`error_` followed by timestamp and random suffix — no real task id was ever
assigned), with status `failed` and a human-readable result containing the
error message, and the failure is surfaced as a rejection of the per-task
promise. -/
theorem C6_start_failure (query : String) (hasStream : Bool) (now : Nat)
    (rand errMsg : String) (run : RunMap) :
    (executeTask query hasStream (.startFailure now rand errMsg) run).run
        = setRun run (tempTaskId now rand)
            { task := query, status := .failed,
              result := "Failed to start task: " ++ errMsg }
    ∧ findRun (executeTask query hasStream (.startFailure now rand errMsg) run).run
          (tempTaskId now rand)
        = some { task := query, status := .failed,
                 result := "Failed to start task: " ++ errMsg }
    ∧ (executeTask query hasStream (.startFailure now rand errMsg) run).settled
        = some false
    ∧ tempTaskId now rand = "error_" ++ toString now ++ "_" ++ rand
    ∧ (∃ p : String, "Failed to start task: " ++ errMsg = p ++ errMsg) := by
  refine ⟨rfl, ?_, rfl, rfl, ⟨"Failed to start task: ", rfl⟩⟩
  simp only [executeTask, startFailureHandler, initExecState]
  exact findRun_setRun_self _ _ _

/-- Claim C7 fails on the code: no `TaskRun` is registered at submission time
(the run map is untouched until the first runtime event), the first
registration happens in `onTaskCreated` with initial status `created` — not
`pending` — and the `TaskRun` status union contains neither `pending` nor
`awaiting_input`. -/
theorem C7_counterexample :
    (executeTask "q" false (TaskOutcome.runs [] false []) []).run = []
    ∧ (executeTask "q" false (TaskOutcome.runs [RuntimeEvent.taskCreated "t1"] false []) []).run
        = [("t1", { task := "q", status := TaskStatus.created,
                    result := "Task created, waiting to start..." })]
    ∧ (∀ s : TaskStatus, statusName s ≠ "pending" ∧ statusName s ≠ "awaiting_input") := by
  refine ⟨rfl, rfl, ?_⟩
  intro s
  cases s <;> exact ⟨by decide, by decide⟩

/-- Claim C7 amended: a `TaskRun` is first registered when the runtime
assigns the `taskId` (`onTaskCreated`), with initial status `created`; before
that event the run map holds no entry for the task. The status domain is
exactly `created | running | completed | failed | cancelled`, without
`pending` or `awaiting_input`. -/
theorem C7_amended (query id : String) (hasStream : Bool) (st : ExecState) :
    findRun (applyEvent query hasStream st (.taskCreated id)).run id
        = some { task := query, status := TaskStatus.created,
                 result := "Task created, waiting to start..." }
    ∧ (applyEvent query hasStream st (.taskCreated id)).taskId = id
    ∧ (∀ s : TaskStatus,
        statusName s ∈ ["created", "running", "completed", "failed", "cancelled"]) := by
  refine ⟨?_, rfl, ?_⟩
  · simp only [applyEvent]
    exact findRun_setRun_self _ _ _
  · intro s
    cases s <;> simp [statusName]

/-- Claim C9: with no `maxConcurrency` option the destructuring default is 3,
and under a semaphore of that capacity at most 3 permits are ever
outstanding; with no `timeout` option the per-task timeout is 300000 ms. -/
theorem C9_defaults (o : ExecuteRooTasksOptions) :
    (o.maxConcurrency = none →
        effectiveMaxConcurrency o = 3
        ∧ ∀ ops : List SemOp,
            outstanding (applyOps (effectiveMaxConcurrency o) ops) ≤ (3 : Int))
    ∧ (o.timeout = none → effectiveTimeout o = 300000) := by
  constructor
  · intro h
    have h3 : effectiveMaxConcurrency o = 3 := by
      simp [effectiveMaxConcurrency, h]
    refine ⟨h3, fun ops => ?_⟩
    rw [h3]
    exact_mod_cast outstanding_le 3 ops
  · intro h
    simp [effectiveTimeout, h]

theorem C9_defaults_witness :
    effectiveMaxConcurrency
        { maxConcurrency := none, streamContent := false, timeout := none } = 3
    ∧ effectiveTimeout
        { maxConcurrency := none, streamContent := false, timeout := none } = 300000 := by
  have h := C9_defaults { maxConcurrency := none, streamContent := false, timeout := none }
  exact ⟨(h.1 rfl).1, h.2 rfl⟩

/-- Claim C10: calling `executeRooTasks` on an uninitialized manager fails
with `McpTaskManager is not initialized` before any task, permit or run-map
entry exists (the guard is the first statement, and the error result carries
no run map); `initialize` throws `RooCode adapter is not available` when the
adapter is inactive; a second `initialize` on an initialized manager returns
successfully with the state unchanged. -/
theorem C10_init_guard (m : ManagerState) (tasks : List TaskSpec)
    (o : ExecuteRooTasksOptions) (adapterActive : Bool) :
    (m.isInitialized = false →
        executeRooTasks m tasks o = Except.error "McpTaskManager is not initialized")
    ∧ (m.isInitialized = false → adapterActive = false →
        initManager adapterActive m = Except.error "RooCode adapter is not available")
    ∧ (m.isInitialized = true → initManager adapterActive m = Except.ok m) := by
  refine ⟨fun h => ?_, fun h ha => ?_, fun h => ?_⟩
  · simp [executeRooTasks, h]
  · simp [initManager, h, ha]
  · simp [initManager, h]

theorem C10_init_guard_witness :
    executeRooTasks { isInitialized := false } []
        { maxConcurrency := none, streamContent := false, timeout := none }
      = Except.error "McpTaskManager is not initialized"
    ∧ initManager false { isInitialized := false }
      = Except.error "RooCode adapter is not available"
    ∧ initManager false { isInitialized := true }
      = Except.ok { isInitialized := true } := by
  have h := C10_init_guard { isInitialized := false } []
    { maxConcurrency := none, streamContent := false, timeout := none } false
  have h2 := C10_init_guard { isInitialized := true } []
    { maxConcurrency := none, streamContent := false, timeout := none } false
  exact ⟨h.1 rfl, h.2.1 rfl rfl, h2.2.2 rfl⟩

/-- Claim C1 fails on the code: the event handlers never check for a terminal
status. After `tool failed` set the entry to `failed`, a late `task
completed` event overwrites the status to `completed` (keeping the failure
text, which is neither empty nor `Task started...`), so the final status is
`completed`, not `failed`, and the second terminal transition is not a
no-op. -/
theorem C1_counterexample :
    findRun (executeTask "q" false
        (TaskOutcome.runs [RuntimeEvent.taskCreated "t1",
          RuntimeEvent.toolFailed "t1" "write" "boom",
          RuntimeEvent.taskCompleted "t1"] false []) []).run "t1"
      = some { task := "q", status := TaskStatus.completed,
               result := "Tool write failed: boom" }
    ∧ TaskStatus.completed ≠ TaskStatus.failed := by
  exact ⟨by decide, by decide⟩

/-- Claim C1 amended: terminal statuses are not immutable. For any entry
(whatever its status, e.g. already `failed`), a subsequently handled
`task completed` event overwrites the status to `completed`, preserving a
non-empty result that is not `Task started...`; an `onMessage` event
overwrites only the result, never the status; no exception is raised (the
handlers are total) and the promise keeps its first settlement. -/
theorem C1_amended (query msg : String) (hasStream : Bool) (st : ExecState)
    (id : String) (tr : TaskRun)
    (hfind : findRun st.run id = some tr)
    (hr1 : tr.result ≠ "") (hr2 : tr.result ≠ "Task started...") :
    findRun (applyEvent query hasStream st (.taskCompleted id)).run id
        = some { tr with status := TaskStatus.completed }
    ∧ findRun (applyEvent query hasStream st (.message id msg)).run id
        = some { tr with result := msg }
    ∧ (applyEvent query hasStream st (.taskCompleted id)).settled
        = settleOnce st.settled true := by
  have hsome : (findRun st.run id).isSome = true := by
    rw [hfind]
    rfl
  refine ⟨?_, ?_, ?_⟩
  · simp only [applyEvent, hsome, if_true]
    rw [findRun_updateRun_self, hfind]
    simp [hr1, hr2]
  · simp only [applyEvent, hsome, if_true]
    rw [findRun_updateRun_self, hfind]
    rfl
  · simp [applyEvent, hsome]

theorem C1_amended_witness :
    findRun (applyEvent "q" false
        ⟨"t1", [("t1", ⟨"q", TaskStatus.failed, "Tool write failed: boom"⟩)],
          [], false, some true⟩
        (RuntimeEvent.taskCompleted "t1")).run "t1"
      = some ⟨"q", TaskStatus.completed, "Tool write failed: boom"⟩
    ∧ findRun (applyEvent "q" false
        ⟨"t1", [("t1", ⟨"q", TaskStatus.failed, "Tool write failed: boom"⟩)],
          [], false, some true⟩
        (RuntimeEvent.message "t1" "late")).run "t1"
      = some ⟨"q", TaskStatus.failed, "late"⟩
    ∧ (applyEvent "q" false
        ⟨"t1", [("t1", ⟨"q", TaskStatus.failed, "Tool write failed: boom"⟩)],
          [], false, some true⟩
        (RuntimeEvent.taskCompleted "t1")).settled = settleOnce (some true) true := by
  have h := C1_amended "q" "late" false
    ⟨"t1", [("t1", ⟨"q", TaskStatus.failed, "Tool write failed: boom"⟩)],
      [], false, some true⟩
    "t1" ⟨"q", TaskStatus.failed, "Tool write failed: boom"⟩
    (by decide) (by decide) (by decide)
  exact ⟨h.1, h.2.1, h.2.2⟩

/-- Claim C4 fails on the code for a task whose query never triggers any
runtime event: when the timeout fires, `taskId` is still `""` and no registry
entry for the task exists, so nothing transitions to `failed` — the run map
is unchanged (here: still empty) — while the promise is indeed rejected. -/
theorem C4_counterexample :
    (executeTask "q" false (TaskOutcome.runs [] true []) []).run = []
    ∧ (executeTask "q" false (TaskOutcome.runs [] true []) []).settled = some false := by
  exact ⟨rfl, rfl⟩

/-- Claim C4 amended: for a task with no runtime event, the firing timeout
leaves the run map unchanged (no entry exists to mark `failed`) and rejects
the per-task promise; only when a `taskId` was assigned and its entry exists
is the entry forced to `failed` with the synthetic message
`Task timed out after 5 minutes`. The permit is released by the wrapper's
`finally` regardless of rejection: acquiring and then releasing returns the
outstanding-permit count to its previous value. -/
theorem C4_amended (query : String) (hasStream : Bool) (run : RunMap) :
    ((executeTask query hasStream (.runs [] true []) run).run = run
      ∧ (executeTask query hasStream (.runs [] true []) run).settled = some false)
    ∧ (∀ (st : ExecState) (tr : TaskRun),
        st.timerActive = true → st.taskId ≠ "" → findRun st.run st.taskId = some tr →
        findRun (fireTimeout hasStream st).run st.taskId
            = some { tr with
                     status := TaskStatus.failed
                     result := "Task timed out after 5 minutes" }
        ∧ (fireTimeout hasStream st).settled = settleOnce st.settled false)
    ∧ (∀ (s : SemState) (id : Nat), 0 < s.permits → s.waitQueue = [] →
        outstanding (Semaphore.release (Semaphore.acquire s id)) = outstanding s) := by
  refine ⟨⟨rfl, rfl⟩, ?_, ?_⟩
  · intro st tr ht h0 hfind
    have hsome : (findRun st.run st.taskId).isSome = true := by
      rw [hfind]
      rfl
    constructor
    · simp only [fireTimeout, ht, if_true, hsome]
      rw [if_pos h0]
      simp only [findRun_updateRun_self, hfind]
      rfl
    · simp only [fireTimeout, ht, if_true]
      rw [if_pos h0]
      simp [hsome]
  · intro s id hp hq
    have hacq : Semaphore.acquire s id
        = { s with permits := s.permits - 1, granted := s.granted ++ [id] } := by
      simp [Semaphore.acquire, hp]
    rw [hacq]
    simp [Semaphore.release, hq, outstanding]

theorem C4_amended_witness :
    findRun (fireTimeout false
        ⟨"t1", [("t1", ⟨"q", TaskStatus.running, "Task started..."⟩)], [], true, none⟩).run "t1"
      = some ⟨"q", TaskStatus.failed, "Task timed out after 5 minutes"⟩
    ∧ (fireTimeout false
        ⟨"t1", [("t1", ⟨"q", TaskStatus.running, "Task started..."⟩)], [], true, none⟩).settled
      = settleOnce none false
    ∧ outstanding (Semaphore.release (Semaphore.acquire (initSem 1) 0))
      = outstanding (initSem 1) := by
  have h := C4_amended "q" false []
  have h2 := h.2.1
    ⟨"t1", [("t1", ⟨"q", TaskStatus.running, "Task started..."⟩)], [], true, none⟩
    ⟨"q", TaskStatus.running, "Task started..."⟩
    rfl (by decide) (by decide)
  exact ⟨h2.1, h2.2, h.2.2 (initSem 1) 0 (by decide) rfl⟩

/-- Claim C8: every state-changing runtime event whose guard passes, handled
with a `streamContent` callback present, appends to the stream exactly the
markdown regenerated by `summarizeRun` from the run registry as it stands
after the handler's mutation — so the streamed summary and the registry
cannot disagree about any task's latest known status. (That `summarizeRun`
is deterministic on equal run maps is definitional: it is a pure function of
the map.) -/
theorem C8_stream_consistency (query : String) (st : ExecState) (ev : RuntimeEvent)
    (happ : eventApplies st ev = true) :
    (applyEvent query true st ev).streamed
      = st.streamed ++ [summarizeRun (applyEvent query true st ev).run] := by
  cases ev with
  | taskCreated i => simp [applyEvent]
  | taskStarted i =>
      simp only [eventApplies] at happ
      simp [applyEvent, happ]
  | message i msg =>
      simp only [eventApplies] at happ
      simp [applyEvent, happ]
  | taskCompleted i =>
      simp only [eventApplies] at happ
      simp [applyEvent, happ]
  | taskAborted i =>
      simp only [eventApplies] at happ
      simp [applyEvent, happ]
  | toolFailed i tool err =>
      simp only [eventApplies] at happ
      simp [applyEvent, happ]

theorem C8_stream_consistency_witness :
    (applyEvent "q" true
        ⟨"", [("t1", ⟨"q", TaskStatus.created, "r"⟩)], [], true, none⟩
        (RuntimeEvent.taskStarted "t1")).streamed
      = ([] : List String) ++ [summarizeRun (applyEvent "q" true
          ⟨"", [("t1", ⟨"q", TaskStatus.created, "r"⟩)], [], true, none⟩
          (RuntimeEvent.taskStarted "t1")).run] :=
  C8_stream_consistency "q"
    ⟨"", [("t1", ⟨"q", TaskStatus.created, "r"⟩)], [], true, none⟩
    (RuntimeEvent.taskStarted "t1") (by decide)

/-- Claim C5: `executeRooTasks` has `Promise.allSettled` semantics over the
shared run map: the returned map is the fold of every task's full effect
(tasks after a rejected one are still processed), and the rejection of one
task (`_hbad`: the task `bad` settles rejected) neither cancels a sibling nor
drops the sibling's terminal entry — any entry a sibling left under a key no
later task can name survives into the returned map. -/
theorem C5_all_settled (hasStream : Bool) (pre mid post : List TaskSpec)
    (bad sib : TaskSpec) (run0 : RunMap) (id : String) (tr : TaskRun)
    (_hbad : (executeTask bad.query hasStream bad.outcome
        (runTasks hasStream pre run0)).settled = some false)
    (hentry : findRun (executeTask sib.query hasStream sib.outcome
        (runTasks hasStream (pre ++ bad :: mid) run0)).run id = some tr)
    (hfresh : ∀ t ∈ post, id ∉ outcomeIds t.outcome)
    (h0 : id ≠ "") :
    runTasks hasStream (pre ++ bad :: mid ++ sib :: post) run0
        = runTasks hasStream post
            (executeTask sib.query hasStream sib.outcome
              (runTasks hasStream (pre ++ bad :: mid) run0)).run
    ∧ findRun (runTasks hasStream (pre ++ bad :: mid ++ sib :: post) run0) id = some tr := by
  have hsplit : pre ++ bad :: mid ++ sib :: post = (pre ++ bad :: mid) ++ sib :: post := by
    simp
  have hdecomp : runTasks hasStream (pre ++ bad :: mid ++ sib :: post) run0
      = runTasks hasStream post
          (executeTask sib.query hasStream sib.outcome
            (runTasks hasStream (pre ++ bad :: mid) run0)).run := by
    rw [hsplit, runTasks_append, runTasks_cons]
  refine ⟨hdecomp, ?_⟩
  rw [hdecomp, findRun_runTasks_fresh hasStream post _ id hfresh h0, hentry]

theorem C5_all_settled_witness :
    findRun (runTasks false
        ([] ++ ⟨"bq", TaskOutcome.startFailure 1 "r1" "boom"⟩
          :: [] ++ ⟨"sq", TaskOutcome.runs [RuntimeEvent.taskCreated "t1",
              RuntimeEvent.taskStarted "t1", RuntimeEvent.taskCompleted "t1"] false []⟩
          :: []) []) "t1"
      = some ⟨"sq", TaskStatus.completed, "Task completed successfully"⟩ :=
  (C5_all_settled false [] [] []
    ⟨"bq", TaskOutcome.startFailure 1 "r1" "boom"⟩
    ⟨"sq", TaskOutcome.runs [RuntimeEvent.taskCreated "t1",
      RuntimeEvent.taskStarted "t1", RuntimeEvent.taskCompleted "t1"] false []⟩
    [] "t1" ⟨"sq", TaskStatus.completed, "Task completed successfully"⟩
    (by decide) (by decide) (by intro t ht; cases ht) (by decide)).2
